import Mathlib

/-!
Verification of the fantasy OWCS score calculator: a shallow embedding of the
leaderboard, transfer and scoring engine of `api/index.py`, together with
theorems settling the specification claims.

Modelling conventions:
  - JSON roster records become `RosterRecord` with `Option` fields: `none`
    models a missing or null key.  A `null` element of a gameweek list is an
    `Option RosterRecord` that is `none`.
  - Python numbers become `Rat`; the builtin `round(x, 1)` (banker rounding)
    becomes `round1`.
  - The stable `sorted` of Python becomes `List.insertionSort` with a total
    transitive relation (both compute the unique stable sort).
-/

namespace OWCS

/-- Round half to even on rationals, as the Python builtin `round` does. -/
def pyRound (q : ℚ) : ℤ :=
  let f := ⌊q⌋
  let frac := q - f
  if frac < 1/2 then f
  else if 1/2 < frac then f + 1
  else if f % 2 = 0 then f else f + 1

/-- Python `round(q, 1)`. -/
def round1 (q : ℚ) : ℚ := (pyRound (q * 10) : ℚ) / 10

/-- One user record of one gameweek, as stored in the JSON snapshot files.
`none` in a field models a missing (or null) key of the JSON object. -/
structure RosterRecord where
  username : Option String
  score : Option ℚ
  tank : Option String
  dpsOne : Option String
  dpsTwo : Option String
  supportOne : Option String
  supportTwo : Option String
deriving DecidableEq

/-- `safe_get_roster_field` of `api/index.py`: read a slot of a possibly null
roster, defaulting a missing or null value to the sentinel string. -/
def safe_get_roster_field (roster : Option RosterRecord)
    (field : RosterRecord → Option String) (default : String := "Unknown") : String :=
  match roster with
  | none => default
  | some r => (field r).getD default

/-- `get_user_roster` of `api/index.py`: the set of players of the five slots,
with the sentinel discarded; a null roster gives the empty set. -/
def get_user_roster (roster : Option RosterRecord) : Finset String :=
  match roster with
  | none => ∅
  | some r =>
    (({safe_get_roster_field (some r) RosterRecord.tank,
       safe_get_roster_field (some r) RosterRecord.dpsOne,
       safe_get_roster_field (some r) RosterRecord.dpsTwo,
       safe_get_roster_field (some r) RosterRecord.supportOne,
       safe_get_roster_field (some r) RosterRecord.supportTwo} : Finset String).erase "Unknown")

/-- `calculate_score` (identical in all three source files): fantasy points
from one map of one player. -/
def calculate_score (eliminations deaths damage healing : ℕ) : ℚ :=
  let elimination_points : ℚ := (eliminations / 3 : ℕ)
  let death_points : ℚ := (deaths : ℚ) * (-1)
  let damage_points : ℚ := ((damage / 2000 : ℕ) : ℚ) * (1/2)
  let healing_points : ℚ := ((healing / 2000 : ℕ) : ℚ) * (1/2)
  elimination_points + death_points + damage_points + healing_points

/-- The dictionary
`{roster["username"]: roster for roster in prev if roster and "username" in roster}`
of `calculate_transfers` and `generate_leaderboard`, as a lookup function:
the last record of the list carrying the username wins. -/
def lookupLastByUsername : List RosterRecord → String → Option RosterRecord
  | [], _ => none
  | r :: rest, u =>
    match lookupLastByUsername rest u with
    | some x => some x
    | none => if r.username = some u then some r else none

/-- The `previous_rosters` dictionary of `api/index.py`, keyed by username. -/
def previous_rosters (prev : List (Option RosterRecord)) (u : String) :
    Option RosterRecord :=
  lookupLastByUsername ((prev.filterMap id).filter fun r => r.username.isSome) u

/-- The accumulated `transfer_stats` dictionary: its key set together with the
per-player transferred-in and transferred-out counters. -/
structure TransferData where
  keys : Finset String
  tin : String → ℕ
  tout : String → ℕ

/-- The empty `transfer_stats` dictionary. -/
def emptyTD : TransferData := ⟨∅, fun _ => 0, fun _ => 0⟩

/-- The filter `if player and player != "Unknown"` guarding every insertion
into `transfer_stats`. -/
def transferOk (p : String) : Prop := p ≠ "" ∧ p ≠ "Unknown"

instance : DecidablePred transferOk := fun p => by unfold transferOk; infer_instance

/-- Effect on `transfer_stats` of the two per-player loops of
`calculate_transfers` for one matched user: bump the in-counter of every
admissible player transferred in and the out-counter of every admissible
player transferred out (the loop over a Python set is order independent, so
it is rendered as one simultaneous update). -/
def addMatched (td : TransferData) (tin tout : Finset String) : TransferData :=
  { keys := td.keys ∪ tin.filter transferOk ∪ tout.filter transferOk
    tin := fun q => td.tin q + (if q ∈ tin ∧ transferOk q then 1 else 0)
    tout := fun q => td.tout q + (if q ∈ tout ∧ transferOk q then 1 else 0) }

/-- One step of the main loop of `calculate_transfers`: skip null records and
records without a username, skip users absent from the previous gameweek, and
otherwise diff the two rosters and count the matched user. -/
def transferStep (prev : List (Option RosterRecord)) (acc : TransferData × ℕ)
    (o : Option RosterRecord) : TransferData × ℕ :=
  match o with
  | none => acc
  | some r =>
    match r.username with
    | none => acc
    | some u =>
      match previous_rosters prev u with
      | none => acc
      | some pr =>
        let current_players := get_user_roster (some r)
        let previous_players := get_user_roster (some pr)
        (addMatched acc.1 (current_players \ previous_players)
          (previous_players \ current_players), acc.2 + 1)

/-- `calculate_transfers` of `api/index.py`: the per-player transfer counters
and the number of users present in both gameweeks. -/
def calculate_transfers (cur prev : List (Option RosterRecord)) :
    TransferData × ℕ :=
  if cur.isEmpty || prev.isEmpty then (emptyTD, 0)
  else cur.foldl (transferStep prev) (emptyTD, 0)

/-- The per-player statistics row of `analyze_player_frequency`. -/
structure FreqStat where
  role : String
  count : ℕ
deriving DecidableEq

/-- `player_stats[player] = {role, 0}` on first sight followed by
`player_stats[player]["count"] += 1`, on an insertion-ordered dictionary. -/
def bumpPlayer (stats : List (String × FreqStat)) (p role : String) :
    List (String × FreqStat) :=
  if stats.any fun x => x.1 = p then
    stats.map fun x => if x.1 = p then (x.1, ⟨x.2.role, x.2.count + 1⟩) else x
  else stats ++ [(p, ⟨role, 1⟩)]

/-- The `role_mappings` of `analyze_player_frequency`, flattened in its
iteration order: tank, then the two dps slots, then the two support slots. -/
def roster_fields : List (String × (RosterRecord → Option String)) :=
  [("tank", RosterRecord.tank), ("dps", RosterRecord.dpsOne),
   ("dps", RosterRecord.dpsTwo), ("support", RosterRecord.supportOne),
   ("support", RosterRecord.supportTwo)]

/-- Processing of one roster in the counting loop of
`analyze_player_frequency`: null rosters are skipped, and each admissible slot
occupant is counted under the role of the slot. -/
def collectRoster (stats : List (String × FreqStat)) (o : Option RosterRecord) :
    List (String × FreqStat) :=
  match o with
  | none => stats
  | some r =>
    roster_fields.foldl
      (fun st rf =>
        let player := safe_get_roster_field (some r) rf.2
        if player ≠ "" ∧ player ≠ "Unknown" then bumpPlayer st player rf.1 else st)
      stats

/-- The optional transfer block of one row of the frequency table. -/
structure TransferFields where
  transferred_in : ℕ
  transferred_out : ℕ
  net_transfers : ℤ
  transfer_in_pct : ℚ
  transfer_out_pct : ℚ
deriving DecidableEq

/-- One row of the output of `analyze_player_frequency`. -/
structure FreqEntry where
  name : String
  role : String
  count : ℕ
  percentage : ℚ
  transfer : Option TransferFields
deriving DecidableEq, Inhabited

/-- Building one output row of `analyze_player_frequency` from one
`player_stats` item: percentage of all teams, and the transfer block when
transfer data was supplied (an empty dictionary is falsy in Python, so a
player only receives real counters when the dictionary is non-empty and has
the player as a key; otherwise the block is all zero). -/
def mkFreqEntry (total : ℕ) (td : Option TransferData) (existing_users : ℕ)
    (x : String × FreqStat) : FreqEntry :=
  { name := x.1
    role := x.2.role
    count := x.2.count
    percentage := if 0 < total then round1 ((x.2.count : ℚ) / total * 100) else 0
    transfer :=
      match td with
      | none => none
      | some t =>
        if t.keys.Nonempty ∧ x.1 ∈ t.keys then
          some { transferred_in := t.tin x.1
                 transferred_out := t.tout x.1
                 net_transfers := (t.tin x.1 : ℤ) - (t.tout x.1 : ℤ)
                 transfer_in_pct :=
                   if 0 < existing_users then
                     round1 ((t.tin x.1 : ℚ) / existing_users * 100) else 0
                 transfer_out_pct :=
                   if 0 < existing_users then
                     round1 ((t.tout x.1 : ℚ) / existing_users * 100) else 0 }
        else some ⟨0, 0, 0, 0, 0⟩ }

/-- Lexicographic comparison of two strings by code points, the comparison
Python uses on `str`. -/
def charListLe : List Char → List Char → Bool
  | [], _ => true
  | _ :: _, [] => false
  | a :: as, b :: bs => if a < b then true else if b < a then false else charListLe as bs

/-- Python string comparison `a <= b`. -/
def strLe (a b : String) : Prop := charListLe a.data b.data = true

instance : DecidableRel strLe := fun a b => by unfold strLe; infer_instance

/-- Sort key `(-count, name)` of the frequency table: descending count,
ascending name. -/
def freqRel (a b : FreqEntry) : Prop :=
  b.count < a.count ∨ (a.count = b.count ∧ strLe a.name b.name)

instance : DecidableRel freqRel := fun a b => by unfold freqRel; infer_instance

/-- `analyze_player_frequency` of `api/index.py`. -/
def analyze_player_frequency (rosters : List (Option RosterRecord))
    (transfer_data : Option TransferData) (existing_users : ℕ) : List FreqEntry :=
  if rosters.isEmpty then []
  else
    let total_teams := rosters.length
    let player_stats := rosters.foldl collectRoster []
    let result := player_stats.filterMap fun x =>
      if x.1 = "" ∨ x.1 = "Unknown" then none
      else some (mkFreqEntry total_teams transfer_data existing_users x)
    result.insertionSort freqRel

/-- The position dictionary `{r["username"]: i + 1 for i, r in enumerate(l)}`
of `generate_leaderboard`, as a lookup function starting at index `k`: a
later occurrence of the username overwrites an earlier one. -/
def positionsFrom : ℕ → List RosterRecord → String → Option ℕ
  | _, [], _ => none
  | k, r :: rest, u =>
    match positionsFrom (k + 1) rest u with
    | some p => some p
    | none => if r.username = some u then some k else none

/-- One-based rank of a username inside a ranked list. -/
def positionsOf (l : List RosterRecord) (u : String) : Option ℕ :=
  positionsFrom 1 l u

/-- `float(x.get("score", 0))` of the sort keys of `generate_leaderboard`. -/
def scoreVal (r : RosterRecord) : ℚ := r.score.getD 0

/-- The key of `sorted(..., key=..., reverse=True)` on scores: descending by
score, stable. -/
def descScore (a b : RosterRecord) : Prop := scoreVal b ≤ scoreVal a

instance : DecidableRel descScore := fun a b => by unfold descScore; infer_instance

/-- One row of the output of `generate_leaderboard`.  The two transfer lists
are kept as the sets they are built from (the source materialises them with
`list(...)` in unspecified set order). -/
structure LeaderboardEntry where
  username : String
  weekly_points : ℚ
  current_total_score : ℚ
  current_overall_position : ℕ
  transferred_in : Finset String
  transferred_out : Finset String
  tank : String
  dpsOne : String
  dpsTwo : String
  supportOne : String
  supportTwo : String
  previous_total_score : Option ℚ
  previous_overall_position : Option ℕ
  overall_position_change : ℤ
  weekly_position : ℕ
deriving DecidableEq, Inhabited

/-- The final sort key of `generate_leaderboard`: descending weekly points,
stable. -/
def weeklyDesc (a b : LeaderboardEntry) : Prop :=
  b.weekly_points ≤ a.weekly_points

instance : DecidableRel weeklyDesc := fun a b => by unfold weeklyDesc; infer_instance

/-- The `valid_current` filter of `generate_leaderboard`: non-null records
carrying both a score and a username. -/
def valid_current_of (cur : List (Option RosterRecord)) : List RosterRecord :=
  (cur.filterMap id).filter fun r => r.score.isSome && r.username.isSome

/-- The `valid_previous` filter of `generate_leaderboard`: non-null records
carrying a score. -/
def valid_previous_of (prev : List (Option RosterRecord)) : List RosterRecord :=
  (prev.filterMap id).filter fun r => r.score.isSome

/-- The same filter expressed on one optional record. -/
def isValidCurrent (o : Option RosterRecord) : Bool :=
  match o with
  | none => false
  | some r => r.score.isSome && r.username.isSome

/-- The body of the entry-building loop of `generate_leaderboard` for one
valid current record: weekly delta (full score for a new username), rounded
scores, both ranks, position change (Python treats both a null and a zero
previous position as falsy) and the roster diff against the previous record
of the same username. -/
def buildEntry (prev : List (Option RosterRecord))
    (sortedPrev sortedCur : List RosterRecord) (r : RosterRecord) :
    LeaderboardEntry :=
  let u := r.username.getD ""
  let current_total_score := scoreVal r
  let cpos := (positionsOf sortedCur u).getD 0
  match previous_rosters prev u with
  | some pr =>
    let previous_total_score := scoreVal pr
    let ppos := positionsOf sortedPrev u
    { username := u
      weekly_points := round1 (current_total_score - previous_total_score)
      current_total_score := round1 current_total_score
      current_overall_position := cpos
      transferred_in := get_user_roster (some r) \ get_user_roster (some pr)
      transferred_out := get_user_roster (some pr) \ get_user_roster (some r)
      tank := safe_get_roster_field (some r) RosterRecord.tank
      dpsOne := safe_get_roster_field (some r) RosterRecord.dpsOne
      dpsTwo := safe_get_roster_field (some r) RosterRecord.dpsTwo
      supportOne := safe_get_roster_field (some r) RosterRecord.supportOne
      supportTwo := safe_get_roster_field (some r) RosterRecord.supportTwo
      previous_total_score := some (round1 previous_total_score)
      previous_overall_position := ppos
      overall_position_change :=
        if ppos.getD 0 ≠ 0 then (ppos.getD 0 : ℤ) - (cpos : ℤ) else 0
      weekly_position := 0 }
  | none =>
    { username := u
      weekly_points := round1 current_total_score
      current_total_score := round1 current_total_score
      current_overall_position := cpos
      transferred_in := ∅
      transferred_out := ∅
      tank := safe_get_roster_field (some r) RosterRecord.tank
      dpsOne := safe_get_roster_field (some r) RosterRecord.dpsOne
      dpsTwo := safe_get_roster_field (some r) RosterRecord.dpsTwo
      supportOne := safe_get_roster_field (some r) RosterRecord.supportOne
      supportTwo := safe_get_roster_field (some r) RosterRecord.supportTwo
      previous_total_score := none
      previous_overall_position := none
      overall_position_change := 0
      weekly_position := 0 }

/-- `for i, entry in enumerate(leaderboard, 1): entry["weekly_position"] = i`. -/
def assign_weekly_positions : ℕ → List LeaderboardEntry → List LeaderboardEntry
  | _, [] => []
  | k, e :: rest =>
    { e with weekly_position := k } :: assign_weekly_positions (k + 1) rest

/-- `generate_leaderboard` of `api/index.py`.  A missing previous list is
passed as `[]` (Python tests the argument for truthiness only).  The
comprehension building the previous position dictionary subscripts
`roster["username"]`, so a previous record carrying a score but no username
raises a KeyError that the surrounding handler turns into an empty result:
the guard models that path. -/
def generate_leaderboard (cur prev : List (Option RosterRecord)) :
    List LeaderboardEntry :=
  if cur.isEmpty then []
  else if (valid_previous_of prev).any (fun r => r.username.isNone) then []
  else
    let sortedPrev := (valid_previous_of prev).insertionSort descScore
    let valid_current := valid_current_of cur
    let sortedCur := valid_current.insertionSort descScore
    let entries := valid_current.map (buildEntry prev sortedPrev sortedCur)
    assign_weekly_positions 1 (entries.insertionSort weeklyDesc)

/-- A one-roster gameweek used to instantiate the invariant theorems. -/
def freqRosters : List (Option RosterRecord) :=
  [some ⟨some "alice", some 10, some "P1", some "P2", some "P3", some "P4", none⟩]

/-- Transfer data used to instantiate the C8 witness. -/
def tdP1 : TransferData :=
  ⟨{"P1"}, fun q => if q = "P1" then 2 else 0, fun _ => 0⟩

/-- The first frequency row of the C8 witness gameweek. -/
def freqHead : FreqEntry := (analyze_player_frequency freqRosters (some tdP1) 4).head!

/-- Witness record: alice with a cumulative score of 10. -/
def recA : RosterRecord := ⟨some "alice", some 10, none, none, none, none, none⟩

/-- Witness record: bob with a cumulative score of 7. -/
def recB : RosterRecord := ⟨some "bob", some 7, none, none, none, none, none⟩

/-- Witness record: a score but no username. -/
def recNoUser : RosterRecord := ⟨none, some 5, none, none, none, none, none⟩

/-- Witness record: alice in the previous gameweek with score 4. -/
def recAliceOld : RosterRecord := ⟨some "alice", some 4, none, none, none, none, none⟩

/-- Witness record: alice in the previous gameweek without a score field. -/
def recAliceNoScore : RosterRecord := ⟨some "alice", none, none, none, none, none, none⟩

/-- Witness gameweek containing one record that lacks a username. -/
def curScenario : List (Option RosterRecord) := [some recNoUser, some recA]

/-- Witness gameweek with a single valid record. -/
def curSingle : List (Option RosterRecord) := [some recA]

/-- Witness previous gameweek with a scored record for alice. -/
def prevOld : List (Option RosterRecord) := [some recAliceOld]

/-- Witness previous gameweek whose alice record lacks a score. -/
def prevNoScore : List (Option RosterRecord) := [some recAliceNoScore]

/-- Witness gameweek with two valid records of distinct usernames. -/
def curPair : List (Option RosterRecord) := [some recA, some recB]

/-- The single leaderboard row of the C6 witness. -/
def lbHead6 : LeaderboardEntry := (generate_leaderboard curSingle prevOld).head!

/-- The single leaderboard row of the C10 witness. -/
def lbHead10 : LeaderboardEntry := (generate_leaderboard curSingle prevNoScore).head!

/-- Whether the first character list is an initial segment of the second. -/
def startsWithCL : List Char → List Char → Bool
  | [], _ => true
  | _ :: _, [] => false
  | p :: ps, c :: cs => p = c && startsWithCL ps cs

/-- Whether the first character list occurs contiguously inside the second:
the Python substring test `pat in s`. -/
def containsCL (pat : List Char) : List Char → Bool
  | [] => startsWithCL pat []
  | c :: cs => startsWithCL pat (c :: cs) || containsCL pat cs

/-- The test `"playoff" in gw_name.lower()` of `gameweek_sort_key`. -/
def containsPlayoff (s : String) : Bool :=
  containsCL "playoff".data (s.data.map Char.toLower)

/-- `int(''.join(filter(str.isdigit, gw_name)))` with the empty string read
as zero: the decimal number formed by the digit characters of the name. -/
def digitsValue (s : String) : ℕ :=
  (s.data.filter Char.isDigit).foldl (fun acc c => 10 * acc + (c.toNat - 48)) 0

/-- `gameweek_sort_key` of `api/index.py`: playoff gameweeks sort into a
second block, and each block is ordered by the embedded number. -/
def gameweek_sort_key (s : String) : ℕ × ℕ :=
  if containsPlayoff s then (1, digitsValue s) else (0, digitsValue s)

/-- Lexicographic order on the sort keys, as Python compares tuples. -/
def keyLe (a b : ℕ × ℕ) : Prop := a.1 < b.1 ∨ (a.1 = b.1 ∧ a.2 ≤ b.2)

instance : DecidableRel keyLe := fun a b => by unfold keyLe; infer_instance

/-- The value stored for one gameweek name: either not a JSON list at all,
or a list of records some of which may be null. -/
inductive StoredValue where
  | notList : StoredValue
  | ofList : List (Option RosterRecord) → StoredValue

/-- The comparison `sorted(gameweek_data.items(), key=...)` uses. -/
def gwRel (a b : String × StoredValue) : Prop :=
  keyLe (gameweek_sort_key a.1) (gameweek_sort_key b.1)

instance : DecidableRel gwRel := fun a b => by unfold gwRel; infer_instance

instance : IsTrans (String × StoredValue) gwRel :=
  ⟨fun a b c hab hbc => by
    simp only [gwRel, keyLe] at hab hbc ⊢
    omega⟩

instance : IsTotal (String × StoredValue) gwRel :=
  ⟨fun a b => by
    simp only [gwRel, keyLe]
    omega⟩

/-- Everything `process_all_gameweeks` publishes for one processed gameweek. -/
structure GameweekOutput where
  name : String
  stage : String
  leaderboard : List LeaderboardEntry
  transfers : List FreqEntry
  total_participants : ℕ
  new_users : ℤ
  existing_users : ℕ
  average_points : ℚ

/-- The main loop of `process_all_gameweeks` of `api/index.py` over the
sorted gameweek list, threading the previous gameweek state: a stored value
that is not a list, an empty list, or a list with no non-null record is
skipped and leaves the state untouched; otherwise the gameweek is processed
against the last successfully parsed one and becomes the new state. -/
def process_gameweeks :
    Option (List (Option RosterRecord)) → List (String × StoredValue) →
      List GameweekOutput
  | _, [] => []
  | prev, (name, v) :: rest =>
    match v with
    | .notList => process_gameweeks prev rest
    | .ofList l =>
      if l.isEmpty then process_gameweeks prev rest
      else
        let rosters := l.filter Option.isSome
        if rosters.isEmpty then process_gameweeks prev rest
        else
          let tdeu :=
            match prev with
            | some p => if p.isEmpty then (emptyTD, 0) else calculate_transfers rosters p
            | none => (emptyTD, 0)
          let player_analysis := analyze_player_frequency rosters (some tdeu.1) tdeu.2
          let leaderboard :=
            generate_leaderboard rosters (match prev with | some p => p | none => [])
          let total_points := (leaderboard.map LeaderboardEntry.weekly_points).sum
          { name := name
            stage :=
              if containsPlayoff name then "Stage 2 Playoffs"
              else "Stage 2 Regular Season"
            leaderboard := leaderboard
            transfers := player_analysis
            total_participants := leaderboard.length
            new_users := (rosters.length : ℤ) - (tdeu.2 : ℤ)
            existing_users := tdeu.2
            average_points :=
              if leaderboard.isEmpty then 0
              else round1 (total_points / leaderboard.length) } ::
            process_gameweeks (some rosters) rest

/-- `sorted(gameweek_data.items(), key=lambda x: gameweek_sort_key(x[0]))`. -/
def sortGameweeks (gws : List (String × StoredValue)) :
    List (String × StoredValue) :=
  gws.insertionSort gwRel

/-- `process_all_gameweeks` of `api/index.py` on an already loaded store. -/
def process_all_gameweeks (gws : List (String × StoredValue)) :
    List GameweekOutput :=
  process_gameweeks none (sortGameweeks gws)

/-- An invalid stored gameweek used by the C3 witness. -/
def gwInvalid : String × StoredValue := ("gameweek-bad", StoredValue.notList)

/-- The tail gameweek list of the C3 witness. -/
def gwRest : List (String × StoredValue) :=
  [("gameweek-2", StoredValue.ofList [some recA])]

lemma mem_analyze {rosters : List (Option RosterRecord)} {td : Option TransferData}
    {eu : ℕ} {e : FreqEntry} (he : e ∈ analyze_player_frequency rosters td eu) :
    ∃ x : String × FreqStat, x.1 ≠ "" ∧ x.1 ≠ "Unknown" ∧
      e = mkFreqEntry rosters.length td eu x := by
  unfold analyze_player_frequency at he
  split at he
  · simp at he
  · rw [List.mem_insertionSort, List.mem_filterMap] at he
    obtain ⟨x, _, hx⟩ := he
    by_cases hbad : x.1 = "" ∨ x.1 = "Unknown"
    · rw [if_pos hbad] at hx
      exact absurd hx (by simp)
    · push_neg at hbad
      rw [if_neg (by tauto)] at hx
      exact ⟨x, hbad.1, hbad.2, (Option.some.inj hx).symm⟩

lemma unknown_not_mem_transfer_foldl (prev : List (Option RosterRecord)) :
    ∀ (l : List (Option RosterRecord)) (acc : TransferData × ℕ),
      "Unknown" ∉ acc.1.keys →
      "Unknown" ∉ (l.foldl (transferStep prev) acc).1.keys := by
  intro l
  induction l with
  | nil => exact fun acc h => h
  | cons o rest ih =>
    intro acc h
    rw [List.foldl_cons]
    refine ih _ ?_
    rcases o with _ | r
    · exact h
    · rcases hu : r.username with _ | u
      · simpa only [transferStep, hu] using h
      · rcases hp : previous_rosters prev u with _ | pr
        · simpa only [transferStep, hu, hp] using h
        · simp only [transferStep, hu, hp, addMatched, Finset.mem_union,
            Finset.mem_filter, transferOk]
          rintro ((h1 | ⟨-, -, h2⟩) | ⟨-, -, h2⟩)
          · exact h h1
          · exact h2 rfl
          · exact h2 rfl

/-- Claim C5: the sentinel "Unknown" is never a key of the transfer
calculator output and never the name of a frequency analyzer row. -/
theorem unknown_invariant :
    (∀ cur prev : List (Option RosterRecord),
      "Unknown" ∉ (calculate_transfers cur prev).1.keys) ∧
    (∀ (rosters : List (Option RosterRecord)) (td : Option TransferData) (eu : ℕ),
      ∀ e ∈ analyze_player_frequency rosters td eu, e.name ≠ "Unknown") := by
  constructor
  · intro cur prev
    unfold calculate_transfers
    split
    · simp [emptyTD]
    · exact unknown_not_mem_transfer_foldl prev cur (emptyTD, 0) (by simp [emptyTD])
  · intro rosters td eu e he
    obtain ⟨x, -, hx, hex⟩ := mem_analyze he
    rw [hex]
    exact hx

/-- Witness for C5 at a concrete gameweek. -/
theorem unknown_invariant_witness :
    "Unknown" ∉ (calculate_transfers freqRosters freqRosters).1.keys ∧
    ((analyze_player_frequency freqRosters none 0).head!).name ≠ "Unknown" :=
  ⟨unknown_invariant.1 freqRosters freqRosters,
   unknown_invariant.2 freqRosters none 0 _
     (List.head!_mem_self (List.ne_nil_of_length_pos (by decide)))⟩

/-- Claim C8: with transfer data supplied, every frequency row carries a
transfer block; a player with a transfer record gets the recorded counters
and percentages (count over existing users times 100 rounded to one decimal,
zero when there are no existing users), a player without one gets the
all-zero block instead of being dropped. -/
theorem analyze_transfer_fields (rosters : List (Option RosterRecord))
    (td : TransferData) (eu : ℕ) (e : FreqEntry)
    (he : e ∈ analyze_player_frequency rosters (some td) eu) :
    ∃ tf : TransferFields, e.transfer = some tf ∧
      (e.name ∈ td.keys →
        tf.transferred_in = td.tin e.name ∧
        tf.transferred_out = td.tout e.name ∧
        tf.net_transfers = (td.tin e.name : ℤ) - (td.tout e.name : ℤ) ∧
        tf.transfer_in_pct =
          (if 0 < eu then round1 ((td.tin e.name : ℚ) / eu * 100) else 0) ∧
        tf.transfer_out_pct =
          (if 0 < eu then round1 ((td.tout e.name : ℚ) / eu * 100) else 0)) ∧
      (e.name ∉ td.keys → tf = ⟨0, 0, 0, 0, 0⟩) := by
  obtain ⟨x, -, -, hex⟩ := mem_analyze he
  subst hex
  simp only [mkFreqEntry]
  by_cases hk : x.1 ∈ td.keys
  · rw [if_pos ⟨⟨x.1, hk⟩, hk⟩]
    refine ⟨_, rfl, fun _ => ⟨rfl, rfl, rfl, rfl, rfl⟩, fun hnk => absurd hk hnk⟩
  · rw [if_neg (by tauto)]
    exact ⟨_, rfl, fun hkk => absurd hkk hk, fun _ => rfl⟩

/-- Witness for C8 at a concrete gameweek with transfer data. -/
theorem analyze_transfer_fields_witness : freqHead.transfer.isSome = true := by
  obtain ⟨tf, htf, -, -⟩ :=
    analyze_transfer_fields freqRosters tdP1 4 freqHead
      (List.head!_mem_self (List.ne_nil_of_length_pos (by decide)))
  rw [htf]
  rfl

lemma mem_slot_iff {o : Option String} {p : String} (hp : p ≠ "Unknown") :
    p = o.getD "Unknown" ↔ o = some p := by
  cases o with
  | none => simp [Option.getD]; intro h; exact hp h
  | some a => simp [Option.getD]; exact eq_comm

/-- Claim C4: the roster extractor maps a null snapshot to the empty set, and
for any snapshot its output is exactly the set of names occupying the five
slots, the sentinel "Unknown" excluded. -/
theorem get_user_roster_spec :
    get_user_roster none = ∅ ∧
    ∀ (r : RosterRecord) (p : String),
      p ∈ get_user_roster (some r) ↔
        p ≠ "Unknown" ∧
          (r.tank = some p ∨ r.dpsOne = some p ∨ r.dpsTwo = some p ∨
           r.supportOne = some p ∨ r.supportTwo = some p) := by
  refine ⟨rfl, fun r p => ?_⟩
  simp only [get_user_roster, Finset.mem_erase, Finset.mem_insert, Finset.mem_singleton]
  constructor
  · rintro ⟨hp, h⟩
    refine ⟨hp, ?_⟩
    rcases h with h | h | h | h | h <;>
      simp only [safe_get_roster_field] at h <;>
      [exact Or.inl ((mem_slot_iff hp).mp h);
       exact Or.inr (Or.inl ((mem_slot_iff hp).mp h));
       exact Or.inr (Or.inr (Or.inl ((mem_slot_iff hp).mp h)));
       exact Or.inr (Or.inr (Or.inr (Or.inl ((mem_slot_iff hp).mp h))));
       exact Or.inr (Or.inr (Or.inr (Or.inr ((mem_slot_iff hp).mp h))))]
  · rintro ⟨hp, h⟩
    refine ⟨hp, ?_⟩
    rcases h with h | h | h | h | h <;>
      simp only [safe_get_roster_field] <;>
      [exact Or.inl ((mem_slot_iff hp).mpr h);
       exact Or.inr (Or.inl ((mem_slot_iff hp).mpr h));
       exact Or.inr (Or.inr (Or.inl ((mem_slot_iff hp).mpr h)));
       exact Or.inr (Or.inr (Or.inr (Or.inl ((mem_slot_iff hp).mpr h))));
       exact Or.inr (Or.inr (Or.inr (Or.inr ((mem_slot_iff hp).mpr h))))]

/-- Claim C9: the match scorer computes
floor(elims/3) - deaths + 0.5 floor(damage/2000) + 0.5 floor(healing/2000),
and on eliminations 9, deaths 2, damage 4500, healing 0 it yields 2. -/
theorem calculate_score_spec :
    (∀ eliminations deaths damage healing : ℕ,
      calculate_score eliminations deaths damage healing =
        (⌊(eliminations : ℚ) / 3⌋₊ : ℚ) - deaths
          + (1/2) * (⌊(damage : ℚ) / 2000⌋₊ : ℚ)
          + (1/2) * (⌊(healing : ℚ) / 2000⌋₊ : ℚ)) ∧
    calculate_score 9 2 4500 0 = 2 := by
  constructor
  · intro e d dmg h
    have he : ⌊(e : ℚ) / 3⌋₊ = e / 3 := by
      rw [show (3 : ℚ) = ((3 : ℕ) : ℚ) by norm_num, Nat.floor_div_nat, Nat.floor_natCast]
    have hd : ⌊(dmg : ℚ) / 2000⌋₊ = dmg / 2000 := by
      rw [show (2000 : ℚ) = ((2000 : ℕ) : ℚ) by norm_num, Nat.floor_div_nat, Nat.floor_natCast]
    have hh : ⌊(h : ℚ) / 2000⌋₊ = h / 2000 := by
      rw [show (2000 : ℚ) = ((2000 : ℕ) : ℚ) by norm_num, Nat.floor_div_nat, Nat.floor_natCast]
    rw [he, hd, hh]
    simp only [calculate_score]
    ring
  · norm_num [calculate_score]

lemma mem_assign_weekly {e : LeaderboardEntry} :
    ∀ {k : ℕ} {l : List LeaderboardEntry}, e ∈ assign_weekly_positions k l →
      ∃ e' ∈ l, ∃ i : ℕ, e = { e' with weekly_position := i } := by
  intro k l
  induction l generalizing k with
  | nil => intro he; simp [assign_weekly_positions] at he
  | cons x rest ih =>
    intro he
    simp only [assign_weekly_positions] at he
    rcases List.mem_cons.mp he with h | h
    · exact ⟨x, List.mem_cons_self x rest, k, h⟩
    · obtain ⟨e', he', i, hei⟩ := ih h
      exact ⟨e', List.mem_cons_of_mem x he', i, hei⟩

lemma assign_weekly_length :
    ∀ (k : ℕ) (l : List LeaderboardEntry),
      (assign_weekly_positions k l).length = l.length := by
  intro k l
  induction l generalizing k with
  | nil => rfl
  | cons x rest ih => simp [assign_weekly_positions, ih]

lemma assign_weekly_map_username :
    ∀ (k : ℕ) (l : List LeaderboardEntry),
      (assign_weekly_positions k l).map LeaderboardEntry.username =
        l.map LeaderboardEntry.username := by
  intro k l
  induction l generalizing k with
  | nil => rfl
  | cons x rest ih => simp only [assign_weekly_positions, List.map_cons, ih]

lemma assign_weekly_map_cpos :
    ∀ (k : ℕ) (l : List LeaderboardEntry),
      (assign_weekly_positions k l).map LeaderboardEntry.current_overall_position =
        l.map LeaderboardEntry.current_overall_position := by
  intro k l
  induction l generalizing k with
  | nil => rfl
  | cons x rest ih => simp only [assign_weekly_positions, List.map_cons, ih]

lemma assign_weekly_map_position :
    ∀ (k : ℕ) (l : List LeaderboardEntry),
      (assign_weekly_positions k l).map LeaderboardEntry.weekly_position =
        List.range' k l.length := by
  intro k l
  induction l generalizing k with
  | nil => rfl
  | cons x rest ih =>
    simp only [assign_weekly_positions, List.map_cons, ih, List.length_cons,
      List.range'_succ]

lemma buildEntry_username (prev : List (Option RosterRecord))
    (sp sc : List RosterRecord) (r : RosterRecord) :
    (buildEntry prev sp sc r).username = r.username.getD "" := by
  simp only [buildEntry]
  split <;> rfl

lemma buildEntry_cpos (prev : List (Option RosterRecord))
    (sp sc : List RosterRecord) (r : RosterRecord) :
    (buildEntry prev sp sc r).current_overall_position =
      (positionsOf sc (r.username.getD "")).getD 0 := by
  simp only [buildEntry]
  split <;> rfl

lemma positionsFrom_eq_none {u : String} :
    ∀ {k : ℕ} {l : List RosterRecord}, (∀ r ∈ l, r.username ≠ some u) →
      positionsFrom k l u = none := by
  intro k l
  induction l generalizing k with
  | nil => intro _; rfl
  | cons r rest ih =>
    intro h
    have hrest := ih (k := k + 1) fun r' hr' => h r' (List.mem_cons_of_mem _ hr')
    simp only [positionsFrom, hrest]
    simp [h r (List.mem_cons_self _ _)]

lemma positionsFrom_isSome {u : String} :
    ∀ {k : ℕ} {l : List RosterRecord}, (∃ r ∈ l, r.username = some u) →
      (positionsFrom k l u).isSome = true := by
  intro k l
  induction l generalizing k with
  | nil => rintro ⟨r, hr, -⟩; simp at hr
  | cons x rest ih =>
    rintro ⟨r, hr, hu⟩
    rcases List.mem_cons.mp hr with rfl | hr'
    · rcases hcase : positionsFrom (k + 1) rest u with _ | p <;>
        simp [positionsFrom, hcase, hu]
    · have h2 := ih (k := k + 1) ⟨r, hr', hu⟩
      rcases hcase : positionsFrom (k + 1) rest u with _ | p
      · rw [hcase] at h2; simp at h2
      · simp [positionsFrom, hcase]

lemma positionsFrom_map_eq_range' :
    ∀ (k : ℕ) (l : List RosterRecord),
      (l.map RosterRecord.username).Nodup → (∀ r ∈ l, r.username.isSome) →
      (l.map fun r => (positionsFrom k l (r.username.getD "")).getD 0) =
        List.range' k l.length := by
  intro k l
  induction l generalizing k with
  | nil => intro _ _; rfl
  | cons x rest ih =>
    intro hnd hsome
    have hx : x.username = some (x.username.getD "") := by
      have hs := hsome x (List.mem_cons_self _ _)
      rcases hcase : x.username with _ | v
      · rw [hcase] at hs; simp at hs
      · rfl
    have hnd' : (rest.map RosterRecord.username).Nodup :=
      (List.nodup_cons.mp hnd).2
    have hxnot : x.username ∉ rest.map RosterRecord.username :=
      (List.nodup_cons.mp hnd).1
    have hhead : positionsFrom k (x :: rest) (x.username.getD "") = some k := by
      have hnone : positionsFrom (k + 1) rest (x.username.getD "") = none := by
        refine positionsFrom_eq_none fun r' hr' hru => ?_
        exact hxnot (by rw [← hru] at hx; rw [hx]; exact List.mem_map_of_mem _ hr')
      simp only [positionsFrom, hnone]
      rw [if_pos hx]
    have htail : rest.map (fun r => (positionsFrom k (x :: rest) (r.username.getD "")).getD 0) =
        rest.map (fun r => (positionsFrom (k + 1) rest (r.username.getD "")).getD 0) := by
      refine List.map_congr_left fun r hr => ?_
      have hru : r.username = some (r.username.getD "") := by
        rcases hcase : r.username with _ | v
        · have := hsome r (List.mem_cons_of_mem _ hr)
          rw [hcase] at this
          simp at this
        · rfl
      have hs := positionsFrom_isSome (k := k + 1) (l := rest) ⟨r, hr, hru⟩
      rcases hcase : positionsFrom (k + 1) rest (r.username.getD "") with _ | p
      · rw [hcase] at hs; simp at hs
      · simp [positionsFrom, hcase]
    have hrest := ih (k := k + 1) hnd' fun r hr => hsome r (List.mem_cons_of_mem _ hr)
    calc (x :: rest).map (fun r => (positionsFrom k (x :: rest) (r.username.getD "")).getD 0)
        = (positionsFrom k (x :: rest) (x.username.getD "")).getD 0 ::
            rest.map (fun r => (positionsFrom k (x :: rest) (r.username.getD "")).getD 0) := by
          rw [List.map_cons]
      _ = k :: List.range' (k + 1) rest.length := by rw [hhead, htail, hrest]; rfl
      _ = List.range' k (x :: rest).length := by rw [List.length_cons, List.range'_succ]

lemma valid_current_length :
    ∀ cur : List (Option RosterRecord),
      (valid_current_of cur).length = cur.countP isValidCurrent := by
  intro cur
  induction cur with
  | nil => rfl
  | cons o rest ih =>
    rcases o with _ | r
    · simpa [valid_current_of, List.countP_cons, isValidCurrent] using ih
    · simp only [valid_current_of, List.filterMap_cons, id] at ih ⊢
      rw [List.filter_cons, List.countP_cons]
      by_cases hv : (r.score.isSome && r.username.isSome) = true
      · simp [isValidCurrent, hv, ih]
      · simp [isValidCurrent, hv, ih]

lemma mem_generate_leaderboard {cur prev : List (Option RosterRecord)}
    {e : LeaderboardEntry} (he : e ∈ generate_leaderboard cur prev) :
    ∃ r ∈ valid_current_of cur, ∃ i : ℕ,
      e = { buildEntry prev ((valid_previous_of prev).insertionSort descScore)
              ((valid_current_of cur).insertionSort descScore) r
            with weekly_position := i } := by
  unfold generate_leaderboard at he
  split at he
  · simp at he
  · split at he
    · simp at he
    · obtain ⟨e', he', i, hei⟩ := mem_assign_weekly he
      rw [List.mem_insertionSort] at he'
      obtain ⟨r, hr, hre⟩ := List.mem_map.mp he'
      exact ⟨r, hr, i, by rw [hei, hre]⟩

lemma buildEntry_cts (prev : List (Option RosterRecord))
    (sp sc : List RosterRecord) (r : RosterRecord) :
    (buildEntry prev sp sc r).current_total_score = round1 (scoreVal r) := by
  simp only [buildEntry]
  split <;> rfl

lemma buildEntry_weekly_none (prev : List (Option RosterRecord))
    (sp sc : List RosterRecord) (r : RosterRecord)
    (h : previous_rosters prev (r.username.getD "") = none) :
    (buildEntry prev sp sc r).weekly_points = round1 (scoreVal r) := by
  simp only [buildEntry, h]

lemma buildEntry_weekly_some (prev : List (Option RosterRecord))
    (sp sc : List RosterRecord) (r pr : RosterRecord)
    (h : previous_rosters prev (r.username.getD "") = some pr) :
    (buildEntry prev sp sc r).weekly_points = round1 (scoreVal r - scoreVal pr) := by
  simp only [buildEntry, h]

lemma buildEntry_pts_some (prev : List (Option RosterRecord))
    (sp sc : List RosterRecord) (r pr : RosterRecord)
    (h : previous_rosters prev (r.username.getD "") = some pr) :
    (buildEntry prev sp sc r).previous_total_score = some (round1 (scoreVal pr)) := by
  simp only [buildEntry, h]

lemma buildEntry_ppos_some (prev : List (Option RosterRecord))
    (sp sc : List RosterRecord) (r pr : RosterRecord)
    (h : previous_rosters prev (r.username.getD "") = some pr) :
    (buildEntry prev sp sc r).previous_overall_position =
      positionsOf sp (r.username.getD "") := by
  simp only [buildEntry, h]

lemma buildEntry_opc_some (prev : List (Option RosterRecord))
    (sp sc : List RosterRecord) (r pr : RosterRecord)
    (h : previous_rosters prev (r.username.getD "") = some pr) :
    (buildEntry prev sp sc r).overall_position_change =
      if (positionsOf sp (r.username.getD "")).getD 0 ≠ 0 then
        ((positionsOf sp (r.username.getD "")).getD 0 : ℤ) -
          ((positionsOf sc (r.username.getD "")).getD 0 : ℤ)
      else 0 := by
  simp only [buildEntry, h]

lemma round1_zero : round1 0 = 0 := by
  have h0 : pyRound 0 = 0 := by
    simp only [pyRound]
    norm_num
  simp only [round1]
  norm_num [h0]

lemma guard_false_of_wellformed (prev : List (Option RosterRecord))
    (hprev : ∀ r ∈ prev.filterMap id, r.score.isSome = true → r.username.isSome = true) :
    ((valid_previous_of prev).any fun r => r.username.isNone) = false := by
  rw [List.any_eq_false]
  intro r hr
  have hmem : r ∈ prev.filterMap id ∧ r.score.isSome = true := by
    simpa [valid_previous_of, List.mem_filter] using hr
  have hu := hprev r hmem.1 hmem.2
  rcases hcase : r.username with _ | v
  · rw [hcase] at hu; simp at hu
  · simp [hcase]

lemma generate_leaderboard_eq {cur prev : List (Option RosterRecord)}
    (hne : cur.isEmpty = false)
    (hguard : ((valid_previous_of prev).any fun r => r.username.isNone) = false) :
    generate_leaderboard cur prev =
      assign_weekly_positions 1
        (((valid_current_of cur).map
          (buildEntry prev ((valid_previous_of prev).insertionSort descScore)
            ((valid_current_of cur).insertionSort descScore))).insertionSort
          weeklyDesc) := by
  unfold generate_leaderboard
  rw [hne, hguard]
  simp

/-- Claim C1: the leaderboard builder silently drops current records missing
the username or the score field and produces exactly one entry per record
carrying both, for any previous data whose scored records are well formed. -/
theorem leaderboard_entry_per_valid_record
    (cur prev : List (Option RosterRecord))
    (hprev : ∀ r ∈ prev.filterMap id, r.score.isSome = true → r.username.isSome = true) :
    List.Perm ((generate_leaderboard cur prev).map LeaderboardEntry.username)
      ((valid_current_of cur).map fun r => r.username.getD "") ∧
    (generate_leaderboard cur prev).length = cur.countP isValidCurrent := by
  have hguard := guard_false_of_wellformed prev hprev
  by_cases hemp : cur.isEmpty = true
  · have hnil : cur = [] := by simpa using hemp
    subst hnil
    simp [generate_leaderboard, valid_current_of]
  · rw [generate_leaderboard_eq (Bool.eq_false_iff.mpr hemp) hguard]
    constructor
    · rw [assign_weekly_map_username]
      refine ((List.perm_insertionSort weeklyDesc _).map LeaderboardEntry.username).trans ?_
      rw [List.map_map,
        show (valid_current_of cur).map (LeaderboardEntry.username ∘
            buildEntry prev ((valid_previous_of prev).insertionSort descScore)
              ((valid_current_of cur).insertionSort descScore)) =
          (valid_current_of cur).map (fun r => r.username.getD "") from
          List.map_congr_left fun r _ => buildEntry_username prev _ _ r]
    · rw [assign_weekly_length, (List.perm_insertionSort weeklyDesc _).length_eq,
        List.length_map, valid_current_length]

/-- Witness for C1: a gameweek with one record lacking a username still
yields one leaderboard entry per remaining valid record. -/
theorem leaderboard_entry_per_valid_record_witness :
    (generate_leaderboard curScenario []).length = curScenario.countP isValidCurrent :=
  (leaderboard_entry_per_valid_record curScenario [] (by simp)).2

/-- Claim C6: an entry of the leaderboard carries weekly points equal to the
rounded difference of the current score and the previous score of the same
username, and equal to the rounded full current score when the username has
no previous record. -/
theorem weekly_points_delta (cur prev : List (Option RosterRecord))
    (e : LeaderboardEntry) (he : e ∈ generate_leaderboard cur prev) :
    ∃ r : RosterRecord, some r ∈ cur ∧ r.username = some e.username ∧
      ∃ c : ℚ, r.score = some c ∧ e.current_total_score = round1 c ∧
        (previous_rosters prev e.username = none → e.weekly_points = round1 c) ∧
        (∀ (pr : RosterRecord) (p : ℚ), previous_rosters prev e.username = some pr →
          pr.score = some p → e.weekly_points = round1 (c - p)) := by
  obtain ⟨r, hr, i, rfl⟩ := mem_generate_leaderboard he
  have hmem : r ∈ cur.filterMap id ∧ (r.score.isSome && r.username.isSome) = true := by
    simpa [valid_current_of, List.mem_filter] using hr
  have hand := hmem.2
  rw [Bool.and_eq_true] at hand
  obtain ⟨hscore, huser⟩ := hand
  obtain ⟨c, hc⟩ := Option.isSome_iff_exists.mp hscore
  obtain ⟨u, hu⟩ := Option.isSome_iff_exists.mp huser
  have hsome_r : some r ∈ cur := by
    obtain ⟨o, ho, hoo⟩ := List.mem_filterMap.mp hmem.1
    simp only [id] at hoo
    rwa [hoo] at ho
  have husr : ({ buildEntry prev ((valid_previous_of prev).insertionSort descScore)
      ((valid_current_of cur).insertionSort descScore) r
      with weekly_position := i } : LeaderboardEntry).username = r.username.getD "" :=
    buildEntry_username prev _ _ r
  have hsv : scoreVal r = c := by rw [scoreVal, hc]; rfl
  refine ⟨r, hsome_r, ?_, c, hc, ?_, ?_, ?_⟩
  · rw [husr, hu]; rfl
  · show (buildEntry prev _ _ r).current_total_score = round1 c
    rw [buildEntry_cts, hsv]
  · intro hnone
    rw [husr] at hnone
    show (buildEntry prev _ _ r).weekly_points = round1 c
    rw [buildEntry_weekly_none prev _ _ r hnone, hsv]
  · intro pr p hpr hp
    rw [husr] at hpr
    show (buildEntry prev _ _ r).weekly_points = round1 (c - p)
    rw [buildEntry_weekly_some prev _ _ r pr hpr, hsv, scoreVal, hp]
    rfl

/-- Witness for C6 on a concrete two-gameweek history. -/
theorem weekly_points_delta_witness :
    ∃ r : RosterRecord, some r ∈ curSingle ∧ r.username = some lbHead6.username := by
  obtain ⟨r, h1, h2, -⟩ := weekly_points_delta curSingle prevOld lbHead6
    (List.head!_mem_self (List.ne_nil_of_length_pos (by decide)))
  exact ⟨r, h1, h2⟩

/-- Claim C7: when the valid current records carry pairwise distinct
usernames, both rank columns of the produced leaderboard are permutations of
1..N, for N the number of valid records. -/
theorem ranks_are_permutations (cur prev : List (Option RosterRecord))
    (hprev : ∀ r ∈ prev.filterMap id, r.score.isSome = true → r.username.isSome = true)
    (hnd : ((valid_current_of cur).map RosterRecord.username).Nodup) :
    List.Perm ((generate_leaderboard cur prev).map LeaderboardEntry.current_overall_position)
      (List.range' 1 (valid_current_of cur).length) ∧
    List.Perm ((generate_leaderboard cur prev).map LeaderboardEntry.weekly_position)
      (List.range' 1 (valid_current_of cur).length) := by
  have hguard := guard_false_of_wellformed prev hprev
  by_cases hemp : cur.isEmpty = true
  · have hnil : cur = [] := by simpa using hemp
    subst hnil
    simp [generate_leaderboard, valid_current_of]
  · rw [generate_leaderboard_eq (Bool.eq_false_iff.mpr hemp) hguard]
    have hsorted_perm : List.Perm ((valid_current_of cur).insertionSort descScore)
        (valid_current_of cur) := List.perm_insertionSort descScore _
    have hnd' : (((valid_current_of cur).insertionSort descScore).map
        RosterRecord.username).Nodup :=
      (hsorted_perm.map RosterRecord.username).nodup_iff.mpr hnd
    have hsome' : ∀ r ∈ (valid_current_of cur).insertionSort descScore,
        r.username.isSome = true := by
      intro r hr
      rw [List.mem_insertionSort] at hr
      have hb : (r.score.isSome && r.username.isSome) = true :=
        (List.mem_filter.mp hr).2
      rw [Bool.and_eq_true] at hb
      exact hb.2
    have key := positionsFrom_map_eq_range' 1
      ((valid_current_of cur).insertionSort descScore) hnd' hsome'
    constructor
    · rw [assign_weekly_map_cpos]
      refine ((List.perm_insertionSort weeklyDesc _).map
        LeaderboardEntry.current_overall_position).trans ?_
      rw [List.map_map,
        show (valid_current_of cur).map (LeaderboardEntry.current_overall_position ∘
            buildEntry prev ((valid_previous_of prev).insertionSort descScore)
              ((valid_current_of cur).insertionSort descScore)) =
          (valid_current_of cur).map (fun r =>
            (positionsOf ((valid_current_of cur).insertionSort descScore)
              (r.username.getD "")).getD 0) from
          List.map_congr_left fun r _ => buildEntry_cpos prev _ _ r]
      refine (List.Perm.map _ hsorted_perm.symm).trans ?_
      simp only [positionsOf] at key ⊢
      rw [key, hsorted_perm.length_eq]
    · rw [assign_weekly_map_position, (List.perm_insertionSort weeklyDesc _).length_eq,
        List.length_map]

/-- Witness for C7 on a gameweek of two distinct users. -/
theorem ranks_are_permutations_witness :
    List.Perm ((generate_leaderboard curPair []).map LeaderboardEntry.current_overall_position)
      (List.range' 1 (valid_current_of curPair).length) ∧
    List.Perm ((generate_leaderboard curPair []).map LeaderboardEntry.weekly_position)
      (List.range' 1 (valid_current_of curPair).length) :=
  ranks_are_permutations curPair [] (by simp) (by decide)

/-- Claim C10: a previous record matched by username but lacking a score is
treated as a previous score of zero: the weekly points equal the reported
current total, the previous total is reported as zero rather than null, the
previous rank is null and the rank change is zero. -/
theorem prev_without_score (cur prev : List (Option RosterRecord))
    (e : LeaderboardEntry) (he : e ∈ generate_leaderboard cur prev)
    (pr : RosterRecord) (hm : previous_rosters prev e.username = some pr)
    (hs : pr.score = none)
    (hall : ∀ r' ∈ prev.filterMap id, r'.username = some e.username → r'.score = none) :
    e.weekly_points = e.current_total_score ∧
    e.previous_total_score = some 0 ∧
    e.previous_overall_position = none ∧
    e.overall_position_change = 0 := by
  obtain ⟨r, hr, i, rfl⟩ := mem_generate_leaderboard he
  have husr : ({ buildEntry prev ((valid_previous_of prev).insertionSort descScore)
      ((valid_current_of cur).insertionSort descScore) r
      with weekly_position := i } : LeaderboardEntry).username = r.username.getD "" :=
    buildEntry_username prev _ _ r
  rw [husr] at hm hall
  have hpr0 : scoreVal pr = 0 := by rw [scoreVal, hs]; rfl
  have hppos : positionsOf ((valid_previous_of prev).insertionSort descScore)
      (r.username.getD "") = none := by
    refine positionsFrom_eq_none fun r' hr' hru => ?_
    rw [List.mem_insertionSort] at hr'
    have hmem := List.mem_filter.mp hr'
    have hnone := hall r' hmem.1 hru
    rw [hnone] at hmem
    simp at hmem
  refine ⟨?_, ?_, ?_, ?_⟩
  · show (buildEntry prev _ _ r).weekly_points = _
    rw [buildEntry_weekly_some prev _ _ r pr hm, buildEntry_cts, hpr0, sub_zero]
  · show (buildEntry prev _ _ r).previous_total_score = some 0
    rw [buildEntry_pts_some prev _ _ r pr hm, hpr0, round1_zero]
  · show (buildEntry prev _ _ r).previous_overall_position = none
    rw [buildEntry_ppos_some prev _ _ r pr hm, hppos]
  · show (buildEntry prev _ _ r).overall_position_change = 0
    rw [buildEntry_opc_some prev _ _ r pr hm, hppos]
    simp

/-- Witness for C10 on a concrete history whose previous alice record has no
score field. -/
theorem prev_without_score_witness :
    lbHead10.weekly_points = lbHead10.current_total_score ∧
    lbHead10.previous_total_score = some 0 ∧
    lbHead10.previous_overall_position = none ∧
    lbHead10.overall_position_change = 0 :=
  prev_without_score curSingle prevNoScore lbHead10
    (List.head!_mem_self (List.ne_nil_of_length_pos (by decide)))
    recAliceNoScore rfl rfl (by decide)

/-- Claim C2: the pipeline processes the gameweek names in an order that is a
permutation of the store in which every name containing "playoff" (on the
lowercased name) comes strictly after every name that does not, and names of
the same block appear in ascending order of their embedded number. -/
theorem gameweek_ordering (gws : List (String × StoredValue)) :
    List.Perm (sortGameweeks gws) gws ∧
    (sortGameweeks gws).Pairwise (fun a b =>
      (containsPlayoff a.1 = false ∧ containsPlayoff b.1 = true) ∨
      (containsPlayoff a.1 = containsPlayoff b.1 ∧
        digitsValue a.1 ≤ digitsValue b.1)) := by
  refine ⟨List.perm_insertionSort gwRel gws, ?_⟩
  have hs := List.sorted_insertionSort gwRel gws
  refine hs.imp ?_
  intro a b hab
  simp only [gwRel, keyLe, gameweek_sort_key] at hab
  cases hA : containsPlayoff a.1 <;> cases hB : containsPlayoff b.1 <;>
    rw [hA, hB] at hab <;> simp at hab
  · exact Or.inr ⟨rfl, hab⟩
  · exact Or.inl ⟨rfl, rfl⟩
  · exact Or.inr ⟨rfl, hab⟩

/-- Claim C3: a gameweek whose stored value is not a non-empty list of
records is skipped without aborting and does not update the carried previous
state: processing it in front of the remaining gameweeks equals processing
the remaining gameweeks with the same previous state. -/
theorem invalid_gameweek_skipped (prev : Option (List (Option RosterRecord)))
    (name : String) (v : StoredValue) (rest : List (String × StoredValue))
    (hskip : v = StoredValue.notList ∨
      ∃ l, v = StoredValue.ofList l ∧ l.filter Option.isSome = []) :
    process_gameweeks prev ((name, v) :: rest) = process_gameweeks prev rest := by
  rcases hskip with rfl | ⟨l, rfl, hl⟩
  · rfl
  · simp only [process_gameweeks]
    by_cases he : l.isEmpty
    · rw [if_pos he]
    · rw [if_neg he]
      simp [hl]

/-- Witness for C3: a stored value that is not a list is skipped and the next
gameweek still compares against the initial state. -/
theorem invalid_gameweek_skipped_witness :
    process_gameweeks none (gwInvalid :: gwRest) = process_gameweeks none gwRest :=
  invalid_gameweek_skipped none "gameweek-bad" StoredValue.notList gwRest (Or.inl rfl)

end OWCS
